import Mathlib

/-!
Verification of the Scoring & Ranking Engine of the resume-shortlisting
system (`backend/app/services/evaluation_service.py`).

The Python scoring functions are shallowly embedded here:
* Python floats are modelled as `ℚ` (all scores are produced by exact
  decimal arithmetic on the inputs, so `ℚ` is faithful),
* strings are Lean `String`s, lowercased character-wise like `str.lower`,
* the concrete regular expressions of the source are modelled as
  executable scanners over `List Char` with the same leftmost-match and
  capture semantics for exactly those patterns,
* code that can raise a Python exception returns `Except String`
  (the field-relevance bonus reaches an unbound name `eng` in the
  engineering branch, which raises `NameError` at run time).
-/

/-! ## Computable min / max / floor on ℚ

Python's built-in `min(a, b)` / `max(a, b)` are conditionals; they are
embedded as such so that every score is computable by the kernel. -/

/-- Python `min(a, b)`. -/
def qmin (a b : ℚ) : ℚ := if a ≤ b then a else b

/-- Python `max(a, b)`. -/
def qmax (a b : ℚ) : ℚ := if b ≤ a then a else b

theorem qmin_eq (a b : ℚ) : qmin a b = min a b := (min_def a b).symm

theorem qmax_eq (a b : ℚ) : qmax a b = max a b := by
  unfold qmax
  rcases le_total a b with h | h
  · rcases eq_or_lt_of_le h with rfl | h'
    · simp
    · rw [if_neg (not_le.mpr h'), max_eq_right h]
  · rw [if_pos h, max_eq_left h]

/-! ## Basic string machinery -/

/-- Character-wise lowercasing of a string, as `str.lower` does on ASCII. -/
def lowerChars (s : String) : List Char :=
  s.data.map Char.toLower

/-- Lowercased copy of a string (ASCII, as in the source's inputs). -/
def toLowerStr (s : String) : String :=
  String.mk (lowerChars s)

/-- `litHere pat l` : the literal `pat` occurs at the head of `l`. -/
def litHere : List Char → List Char → Bool
  | [], _ => true
  | _ :: _, [] => false
  | a :: as, b :: bs => a = b && litHere as bs

/-- `hasSub pat l` : the literal `pat` occurs somewhere inside `l`
(the `in` operator of Python / `re.search` of a literal pattern). -/
def hasSub : List Char → List Char → Bool
  | n, [] => litHere n []
  | n, c :: t => litHere n (c :: t) || hasSub n t

/-- Consume the literal `pat` from the head of `l`, returning the rest. -/
def dropLit : List Char → List Char → Option (List Char)
  | [], l => some l
  | _ :: _, [] => none
  | a :: as, c :: t => if c = a then dropLit as t else none

/-- `afterNoNl pat l` : `pat` occurs in `l` after a (possibly empty) run of
non-newline characters, i.e. the regex `.*pat` matches at the head of `l`. -/
def afterNoNl (b : List Char) : List Char → Bool
  | [] => litHere b []
  | c :: t => litHere b (c :: t) || (c ≠ '\n' && afterNoNl b t)

/-- `seqNoNl a b l` : the regex `a.*b` (with `.` excluding newlines, as in
Python's `re` without DOTALL) matches somewhere in `l`. -/
def seqNoNl (a b : List Char) : List Char → Bool
  | [] => litHere a [] && afterNoNl b []
  | c :: t => (litHere a (c :: t) && afterNoNl b ((c :: t).drop a.length)) || seqNoNl a b t

/-- `hasOptDot a b l` : the regex `a\.?b\.?` matches somewhere in `l`
(existence does not depend on the trailing optional dot). -/
def hasOptDot (a b : Char) (l : List Char) : Bool :=
  hasSub [a, b] l || hasSub [a, '.', b] l

/-- The whitespace class `\s` of Python's `re` module. -/
def isSpaceC (c : Char) : Bool :=
  c = ' ' || c = '\t' || c = '\n' || c = '\r' || c = Char.ofNat 11 || c = Char.ofNat 12

/-- Numeric value of a string of decimal digits (Python `int`). -/
def digitsVal (ds : List Char) : ℕ :=
  ds.foldl (fun n c => n * 10 + (c.toNat - 48)) 0

/-- Word characters of the regex class `\w` (ASCII, as in the inputs). -/
def isWordC (c : Char) : Bool :=
  c.isAlphanum || c = '_'

/-- Split into maximal runs of word characters; `acc` is the reversed
current run.  Models `re.findall(r'\b\w+\b', ·)`. -/
def splitWordsAux : List Char → List Char → List String
  | [], acc => if acc.isEmpty then [] else [String.mk acc.reverse]
  | c :: rest, acc =>
    if isWordC c then splitWordsAux rest (c :: acc)
    else if acc.isEmpty then splitWordsAux rest []
    else String.mk acc.reverse :: splitWordsAux rest []

/-- `re.findall(r'\b\w+\b', s.lower())` : the lowercased word tokens of `s`. -/
def tokenizeWords (s : String) : List String :=
  splitWordsAux (lowerChars s) []

/-! ## Data model -/

/-- The structured data the external extractor supplies for one resume
(the `resume_skills` dict): a skill list, optional years of experience and
an optional education string. -/
structure ResumeSkills where
  skills : List String
  experience_years : Option ℚ
  education : Option String
deriving DecidableEq

/-- `RankingBreakdown` of `app/models/schemas.py`: the four sub-scores and
the composite score. -/
structure RankingBreakdown where
  experience_score : ℚ
  education_score : ℚ
  skills_quality_score : ℚ
  keyword_density_score : ℚ
  composite_score : ℚ
deriving DecidableEq

/-! ## Experience scorer (`_calculate_experience_score`, lines 58-109)

The four requirement regexes are modelled as committed scanners; for these
patterns committed scanning coincides with the backtracking semantics
because every optional piece is followed by a literal that cannot begin an
alternative continuation. -/

/-- `(\d+)\+?\s*years?\s*(?:of\s*)?experience` matched at the head of `l`,
returning the captured number. -/
def matchP1 (l : List Char) : Option ℕ :=
  let ds := l.takeWhile Char.isDigit
  if ds = [] then none else
  let r1 := l.drop ds.length
  let r2 := match r1 with
    | '+' :: t => t
    | _ => r1
  let r3 := r2.dropWhile isSpaceC
  match dropLit "year".data r3 with
  | none => none
  | some r4 =>
    let r5 := match r4 with
      | 's' :: t => t
      | _ => r4
    let r6 := r5.dropWhile isSpaceC
    let r7 := match dropLit "of".data r6 with
      | some t => t.dropWhile isSpaceC
      | none => r6
    match dropLit "experience".data r7 with
    | none => none
    | some _ => some (digitsVal ds)

/-- `(\d+)\s*-\s*(\d+)\s*years?\s*(?:of\s*)?experience` at the head of `l`,
returning the second captured number (the upper bound of the range). -/
def matchP2 (l : List Char) : Option ℕ :=
  let ds1 := l.takeWhile Char.isDigit
  if ds1 = [] then none else
  let r1 := (l.drop ds1.length).dropWhile isSpaceC
  match r1 with
  | '-' :: r2 =>
    let r3 := r2.dropWhile isSpaceC
    let ds2 := r3.takeWhile Char.isDigit
    if ds2 = [] then none else
    let r4 := (r3.drop ds2.length).dropWhile isSpaceC
    match dropLit "year".data r4 with
    | none => none
    | some r5 =>
      let r6 := match r5 with
        | 's' :: t => t
        | _ => r5
      let r7 := r6.dropWhile isSpaceC
      let r8 := match dropLit "of".data r7 with
        | some t => t.dropWhile isSpaceC
        | none => r7
      match dropLit "experience".data r8 with
      | none => none
      | some _ => some (digitsVal ds2)
  | _ => none

/-- `minimum\s*(\d+)\s*years?` matched at the head of `l`. -/
def matchP3 (l : List Char) : Option ℕ :=
  match dropLit "minimum".data l with
  | none => none
  | some r1 =>
    let r2 := r1.dropWhile isSpaceC
    let ds := r2.takeWhile Char.isDigit
    if ds = [] then none else
    let r3 := (r2.drop ds.length).dropWhile isSpaceC
    match dropLit "year".data r3 with
    | none => none
    | some _ => some (digitsVal ds)

/-- `at\s*least\s*(\d+)\s*years?` matched at the head of `l`. -/
def matchP4 (l : List Char) : Option ℕ :=
  match dropLit "at".data l with
  | none => none
  | some r1 =>
    match dropLit "least".data (r1.dropWhile isSpaceC) with
    | none => none
    | some r2 =>
      let r3 := r2.dropWhile isSpaceC
      let ds := r3.takeWhile Char.isDigit
      if ds = [] then none else
      let r4 := (r3.drop ds.length).dropWhile isSpaceC
      match dropLit "year".data r4 with
      | none => none
      | some _ => some (digitsVal ds)

/-- `re.search` : try the matcher at every position, leftmost first. -/
def searchPat (m : List Char → Option ℕ) : List Char → Option ℕ
  | [] => m []
  | c :: t =>
    match m (c :: t) with
    | some v => some v
    | none => searchPat m t

/-- The requirement-extraction loop of `_calculate_experience_score`
(lines 65-81): the four patterns are tried in order, first pattern with a
match anywhere in the lowercased description wins. -/
def extractRequiredExp (job_description : String) : Option ℕ :=
  let l := lowerChars job_description
  match searchPat matchP1 l with
  | some v => some v
  | none =>
    match searchPat matchP2 l with
    | some v => some v
    | none =>
      match searchPat matchP3 l with
      | some v => some v
      | none => searchPat matchP4 l

/-- The general-experience buckets used when no requirement was found
(lines 84-94). -/
def expBucketScore (y : ℚ) : ℚ :=
  if 10 ≤ y then 100
  else if 5 ≤ y then 85
  else if 3 ≤ y then 70
  else if 1 ≤ y then 50
  else 25

/-- Scoring against a known non-zero requirement `R` (lines 96-109). -/
def expReqScore (R : ℕ) (y : ℚ) : ℚ :=
  if (R : ℚ) ≤ y then qmin 100 (80 + qmin ((y - (R : ℚ)) * 2) 20)
  else if (R : ℚ) * 0.8 ≤ y then 70
  else if (R : ℚ) * 0.6 ≤ y then 50
  else if (R : ℚ) * 0.4 ≤ y then 30
  else 10

/-- Dispatch on the extracted requirement.  `if not required_exp:` treats
both a missing requirement and an extracted `0` as absent. -/
def expScoreWithReq : Option ℕ → ℚ → ℚ
  | none, y => expBucketScore y
  | some R, y => if R = 0 then expBucketScore y else expReqScore R y

/-- `_calculate_experience_score` (lines 58-109).  A falsy
`experience_years` (absent or `0`) short-circuits to `0.0`. -/
def _calculate_experience_score (resume_skills : ResumeSkills) (job_description : String) : ℚ :=
  if resume_skills.experience_years.getD 0 = 0 then 0
  else expScoreWithReq (extractRequiredExp job_description) (resume_skills.experience_years.getD 0)

deriving instance DecidableEq for Except

/-! ## Education scorer (`_calculate_education_score` and helpers, lines 112-244)

The `education_hierarchy` dict maps regex-pattern strings to base scores;
three of its keys are genuine regexes (`m\.?s\.?`, `b\.?s\.?`, `b\.?a\.?`),
the others are plain words.  `keyMatches` interprets `re.search` for
exactly these keys. -/

/-- The dict key `m\.?s\.?` (a Lean string literal with escaped dots). -/
def msKey : String := "m\\.?s\\.?"

/-- The dict key `b\.?s\.?`. -/
def bsKey : String := "b\\.?s\\.?"

/-- The dict key `b\.?a\.?`. -/
def baKey : String := "b\\.?a\\.?"

/-- `education_hierarchy` (lines 124-136), in insertion order. -/
def educationHierarchy : List (String × ℚ) :=
  [("phd", 100), ("doctorate", 100), ("master", 85), (msKey, 85), ("mba", 85),
   ("bachelor", 70), (bsKey, 70), (baKey, 65), ("associate", 50),
   ("diploma", 40), ("certificate", 30)]

/-- `re.search(level, education_str)` for the hierarchy keys. -/
def keyMatches (key : String) (hay : List Char) : Bool :=
  if key = msKey then hasOptDot 'm' 's' hay
  else if key = bsKey then hasOptDot 'b' 's' hay
  else if key = baKey then hasOptDot 'b' 'a' hay
  else hasSub key.data hay

/-- The candidate-level loop (lines 139-145): first hierarchy entry whose
pattern matches the lowercased education string. -/
def findCandidateLevel (education_str : List Char) : Option (String × ℚ) :=
  educationHierarchy.find? (fun p => keyMatches p.1 education_str)

/-- The apostrophe character, used inside the degree-requirement regexes. -/
def apoc : Char := Char.ofNat 39

/-- `_extract_required_degree` (lines 163-181): ordered alternation
patterns over the lowercased job description, first match wins. -/
def extractRequiredDegree (job_description : String) : Option String :=
  if hasSub "phd".data (lowerChars job_description) ||
      hasSub "doctorate".data (lowerChars job_description) ||
      hasSub "doctoral".data (lowerChars job_description) then
    some "phd"
  else if seqNoNl "master".data "degree".data (lowerChars job_description) ||
      hasOptDot 'm' 's' (lowerChars job_description) ||
      hasSub ("master".data ++ [apoc, 's']) (lowerChars job_description) ||
      hasSub "mba".data (lowerChars job_description) then
    some "master"
  else if seqNoNl "bachelor".data "degree".data (lowerChars job_description) ||
      hasOptDot 'b' 's' (lowerChars job_description) ||
      hasOptDot 'b' 'a' (lowerChars job_description) ||
      hasSub ("bachelor".data ++ [apoc, 's']) (lowerChars job_description) then
    some "bachelor"
  else if seqNoNl "associate".data "degree".data (lowerChars job_description) ||
      hasSub ("associate".data ++ [apoc, 's']) (lowerChars job_description) then
    some "associate"
  else if hasSub "diploma".data (lowerChars job_description) then
    some "diploma"
  else if hasSub "certificate".data (lowerChars job_description) ||
      hasSub "certification".data (lowerChars job_description) then
    some "certificate"
  else none

/-- `_calculate_degree_match_score` (lines 184-212).  The positions come
from `levels.index(...)` (`try/except ValueError` falls back to
`hierarchy.get(candidate_level, 0)`), the distance is counted in rows of
the pattern table. -/
def _calculate_degree_match_score (candidate_level required_level : String)
    (hierarchy : List (String × ℚ)) : ℚ :=
  let levels := hierarchy.map Prod.fst
  match levels.findIdx? (· == candidate_level), levels.findIdx? (· == required_level) with
  | some candidate_idx, some required_idx =>
    if candidate_level = required_level then
      (hierarchy.lookup candidate_level).getD 0
    else if candidate_idx < required_idx then
      qmin 100 ((hierarchy.lookup required_level).getD 0 +
        qmin (((required_idx - candidate_idx : ℕ) : ℚ) * 10) 20)
    else if required_idx < candidate_idx then
      qmax 0 ((hierarchy.lookup candidate_level).getD 0 -
        ((candidate_idx - required_idx : ℕ) : ℚ) * 15)
    else
      (hierarchy.lookup candidate_level).getD 0
  | _, _ => (hierarchy.lookup candidate_level).getD 0

/-- `tech_fields` (lines 217-219). -/
def techFields : List String :=
  ["computer science", "software engineering", "information technology",
   "data science", "computer engineering", "software development",
   "artificial intelligence", "machine learning", "cybersecurity",
   "cloud computing"]

/-- `business_fields` (line 220). -/
def businessFields : List String :=
  ["business", "management", "finance", "marketing", "economics", "accounting"]

/-- `engineering_fields` (line 221). -/
def engineeringFields : List String :=
  ["engineering", "mechanical", "electrical", "civil", "chemical"]

/-- The Python exception raised by the engineering branch of
`_calculate_field_relevance_bonus`: its generator expression reads the
name `eng`, which is bound nowhere in the program. -/
def nameErrMsg : String := "NameError: name eng is not defined"

/-- `_calculate_field_relevance_bonus` (lines 215-244).  `education_str`
arrives already lowercased.  The engineering branch (lines 240-242)
evaluates `any(eng in job_desc_lower for tech in [...])` over a non-empty
list with `eng` unbound, so reaching it raises `NameError`. -/
def _calculate_field_relevance_bonus (education_str : String)
    (job_description : String) : Except String ℚ :=
  if techFields.any (fun f => hasSub f.data education_str.data) then
    if ["software", "technical", "developer", "engineer", "data", "ai",
        "machine learning"].any (fun t => hasSub t.data (lowerChars job_description)) then .ok 15
    else if ["it", "technology", "system"].any
        (fun t => hasSub t.data (lowerChars job_description)) then .ok 10
    else .ok 0
  else if businessFields.any (fun f => hasSub f.data education_str.data) then
    if ["business", "management", "analyst", "strategy"].any
        (fun t => hasSub t.data (lowerChars job_description)) then .ok 12
    else if ["finance", "marketing"].any
        (fun t => hasSub t.data (lowerChars job_description)) then .ok 8
    else .ok 0
  else if engineeringFields.any (fun f => hasSub f.data education_str.data) then
    .error nameErrMsg
  else .ok 0

/-- `_calculate_education_score` (lines 112-160).  A falsy education value
(absent or the empty string) short-circuits to `0.0`. -/
def _calculate_education_score (resume_skills : ResumeSkills)
    (job_description : String) : Except String ℚ :=
  if resume_skills.education.getD "" = "" then .ok 0
  else
    match findCandidateLevel (toLowerStr (resume_skills.education.getD "")).data with
    | none => .ok 0
    | some (candidate_level, candidate_score) =>
      match _calculate_field_relevance_bonus (toLowerStr (resume_skills.education.getD ""))
          job_description with
      | .error m => .error m
      | .ok bonus =>
        .ok (qmin 100 ((match extractRequiredDegree job_description with
          | some r => _calculate_degree_match_score candidate_level r educationHierarchy
          | none => candidate_score) + bonus))

example : extractRequiredDegree "experience with distributed systems" = some "master" := by decide
example : extractRequiredDegree "bachelor degree required" = some "bachelor" := by decide
example : extractRequiredDegree "nothing here" = none := by decide
example : findCandidateLevel (lowerChars "M.S. in Biology") = some (msKey, 85) := by decide
example : _calculate_degree_match_score msKey "bachelor" educationHierarchy = 90 := by
  with_unfolding_all decide
example : _calculate_education_score ⟨[], none, some "M.S. in Biology"⟩ "bachelor degree required"
    = Except.ok 90 := by with_unfolding_all decide
example : _calculate_education_score ⟨[], none, some "Bachelor of Mechanical Engineering"⟩ ""
    = Except.error nameErrMsg := by with_unfolding_all decide

/-! ## Skills quality scorer (`_calculate_skills_quality_score`, lines 247-276) -/

/-- `high_value_skills` (lines 254-260). -/
def highValueSkills : List String :=
  ["machine learning", "artificial intelligence", "deep learning", "neural networks",
   "cloud architecture", "devops", "kubernetes", "docker", "microservices",
   "blockchain", "cybersecurity", "data engineering", "big data",
   "react", "angular", "vue.js", "node.js", "python", "java", "scala",
   "aws", "azure", "gcp", "terraform", "ansible"]

/-- `high_value_count` (line 263): skills whose lowercased text contains
some high-value entry as a substring. -/
def highValueCount (skills : List String) : ℕ :=
  skills.countP (fun s => highValueSkills.any (fun hv => hasSub hv.data (lowerChars s)))

/-- `_calculate_skills_quality_score` (lines 247-276).  The job
description parameter is accepted but never read. -/
def _calculate_skills_quality_score (resume_skills : ResumeSkills)
    (job_description : String) : ℚ :=
  if resume_skills.skills = [] then 0
  else if resume_skills.skills.length = 0 then 0
  else
    qmin 100 ((highValueCount resume_skills.skills : ℚ) / (resume_skills.skills.length : ℚ) * 80 +
      qmin ((resume_skills.skills.length : ℚ) * 2) 20)

example : _calculate_skills_quality_score ⟨[], some 3, none⟩ "x" = 0 := by decide
example : _calculate_skills_quality_score ⟨["python", "cooking"], none, none⟩ ""
    = 44 := by with_unfolding_all decide

/-! ## Keyword density scorer (`_calculate_keyword_density_score`, lines 279-325) -/

/-- `stop_words` (line 285). -/
def stopWords : List String :=
  ["the", "a", "an", "and", "or", "but", "in", "on", "at", "to", "for", "of",
   "with", "by", "is", "are", "was", "were", "be", "been", "have", "has", "had",
   "do", "does", "did", "will", "would", "could", "should", "may", "might",
   "can", "must"]

/-- Deduplicate keeping first occurrences: the insertion order of the
`keyword_counts` dict. -/
def dedupAux : List String → List String → List String
  | [], _ => []
  | x :: xs, seen =>
    if x ∈ seen then dedupAux xs seen else x :: dedupAux xs (x :: seen)

/-- Stable insertion: a new pair goes after every pair with a count at
least as large, as `sorted(..., key=lambda x: x[1], reverse=True)` keeps
equal-count items in dict order. -/
def insDesc (x : String × ℕ) : List (String × ℕ) → List (String × ℕ)
  | [] => [x]
  | y :: ys => if x.2 ≤ y.2 then y :: insDesc x ys else x :: y :: ys

/-- Stable sort by count, descending. -/
def sortByCountDesc (l : List (String × ℕ)) : List (String × ℕ) :=
  l.foldl (fun acc x => insDesc x acc) []

/-- Lines 282-294: tokenize the description, drop stop words and short
words, count each distinct keyword in the full token list and keep the 20
most frequent. -/
def topKeywords (job_description : String) : List (String × ℕ) :=
  let job_words := tokenizeWords job_description
  let keywords := job_words.filter (fun w => !(stopWords.contains w) && decide (w.length > 2))
  let keyword_counts := (dedupAux keywords []).map (fun w => (w, job_words.count w))
  (sortByCountDesc keyword_counts).take 20

/-- The density buckets (lines 313-325). -/
def densityBucket (density : ℚ) : ℚ :=
  if 50 ≤ density then 100
  else if 40 ≤ density then 85
  else if 30 ≤ density then 70
  else if 20 ≤ density then 55
  else if 10 ≤ density then 40
  else 25

/-- Lines 296-325: the score as a function of the top keywords and the
resume's word tokens. -/
def kwScoreFromWords (top_keywords : List (String × ℕ)) (resume_words : List String) : ℚ :=
  if top_keywords = [] then 0
  else if resume_words.length = 0 then 0
  else
    densityBucket
      ((((top_keywords.map (fun kw => resume_words.count kw.1)).sum : ℚ) /
        (resume_words.length : ℚ)) * 1000)

/-- `_calculate_keyword_density_score` (lines 279-325). -/
def _calculate_keyword_density_score (resume_text : String)
    (job_description : String) : ℚ :=
  kwScoreFromWords (topKeywords job_description) (tokenizeWords resume_text)

example : tokenizeWords "Senior Python developer, Python-ready!" =
    ["senior", "python", "developer", "python", "ready"] := by decide
example : _calculate_keyword_density_score "" "python developer" = 0 := by decide
example : _calculate_keyword_density_score "python python" "python developer wanted"
    = 100 := by with_unfolding_all decide

/-! ## Composite aggregator (`calculate_ranking_breakdown`, lines 19-55) -/

/-- `Rat.floor` of `q`, i.e. `⌊q⌋` (kept as the Batteries function so the
kernel can evaluate it). -/
def ratFloor (q : ℚ) : ℤ := Rat.floor q

theorem ratFloor_eq (q : ℚ) : ratFloor q = ⌊q⌋ := by
  rw [Rat.floor_def, ratFloor, Rat.floor_def']

/-- Round to the nearest integer, ties to even: the behaviour of Python's
built-in `round`, idealised over ℚ. -/
def roundHalfEven (q : ℚ) : ℤ :=
  if q - (ratFloor q : ℚ) < 1/2 then ratFloor q
  else if 1/2 < q - (ratFloor q : ℚ) then ratFloor q + 1
  else if ratFloor q % 2 = 0 then ratFloor q
  else ratFloor q + 1

/-- Python `round(q, 2)`. -/
def round2 (q : ℚ) : ℚ := (roundHalfEven (q * 100) : ℚ) / 100

example : round2 35 = 35 := by with_unfolding_all decide
example : round2 (1/3) = 33/100 := by with_unfolding_all decide
example : round2 (1/40) = 2/100 := by with_unfolding_all decide
example : round2 (3/40) = 8/100 := by with_unfolding_all decide

/-- `calculate_ranking_breakdown` (lines 19-55).  `job_title` is accepted
but never read.  The education scorer can raise (see
`_calculate_field_relevance_bonus`), and the exception propagates.  This
models the arithmetic of the function; the pydantic field bounds
(`ge=0, le=100`) of the `RankingBreakdown` schema are a separate run-time
validation on construction, which would itself raise on a composite above
100 (see `composite_exceeds_hundred_cex`) — they never clamp a value. -/
def calculate_ranking_breakdown (resume_text : String) (resume_skills : ResumeSkills)
    (job_description : String) (job_title : String) (match_score : ℚ) :
    Except String RankingBreakdown :=
  match _calculate_education_score resume_skills job_description with
  | .error m => .error m
  | .ok education_score =>
    .ok ⟨_calculate_experience_score resume_skills job_description,
         education_score,
         _calculate_skills_quality_score resume_skills job_description,
         _calculate_keyword_density_score resume_text job_description,
         round2 (match_score * 0.7 +
           _calculate_experience_score resume_skills job_description * 0.15 +
           education_score * 0.10 +
           _calculate_skills_quality_score resume_skills job_description * 0.05 +
           _calculate_keyword_density_score resume_text job_description * 0.05)⟩

example : calculate_ranking_breakdown "" ⟨[], none, none⟩ "" "" 50
    = Except.ok ⟨0, 0, 0, 0, 35⟩ := by with_unfolding_all decide

/-! ## Ranking sorter (`list_evaluations`, lines 504-537)

When the requested primary sort field is `match_score`, the evaluations
are re-sorted in Python (lines 526-537) by an ascending stable sort on the
4-tuple key built from the requested direction.  Only the fields read by
that key are modelled. -/

/-- The fields of one evaluation row that the tie-break sort reads. -/
structure EvalEntry where
  match_score : ℚ
  ranking_breakdown : Option RankingBreakdown
  experience_years : Option ℚ
deriving DecidableEq

/-- Composite score with the falsy-to-0 defaulting of line 529-530. -/
def compOf (x : EvalEntry) : ℚ :=
  ((x.ranking_breakdown.map RankingBreakdown.composite_score).getD 0)

/-- Experience years with the falsy-to-0 defaulting of line 532-533. -/
def expOf (x : EvalEntry) : ℚ :=
  (x.experience_years.getD 0)

/-- Education sub-score with the falsy-to-0 defaulting of line 535-536. -/
def eduOf (x : EvalEntry) : ℚ :=
  ((x.ranking_breakdown.map RankingBreakdown.education_score).getD 0)

/-- The four raw comparison values of an entry. -/
def entryVals (x : EvalEntry) : ℚ × ℚ × ℚ × ℚ :=
  (x.match_score, compOf x, expOf x, eduOf x)

/-- The key tuple of the sort lambda (lines 526-537): every component is
negated exactly when `desc` holds. -/
def keyTuple (desc : Bool) (x : EvalEntry) : ℚ × ℚ × ℚ × ℚ :=
  if desc then (-x.match_score, -compOf x, -expOf x, -eduOf x)
  else (x.match_score, compOf x, expOf x, eduOf x)

/-- Lexicographic ≤ on pairs. -/
def lex2 (a b : ℚ × ℚ) : Prop :=
  a.1 < b.1 ∨ (a.1 = b.1 ∧ a.2 ≤ b.2)

/-- Lexicographic ≤ on triples. -/
def lex3 (a b : ℚ × ℚ × ℚ) : Prop :=
  a.1 < b.1 ∨ (a.1 = b.1 ∧ lex2 a.2 b.2)

/-- Lexicographic ≤ on 4-tuples: how Python compares the key tuples. -/
def tupLE (a b : ℚ × ℚ × ℚ × ℚ) : Prop :=
  a.1 < b.1 ∨ (a.1 = b.1 ∧ lex3 a.2 b.2)

instance (a b : ℚ × ℚ) : Decidable (lex2 a b) := by unfold lex2; infer_instance

instance (a b : ℚ × ℚ × ℚ) : Decidable (lex3 a b) := by unfold lex3; infer_instance

instance (a b : ℚ × ℚ × ℚ × ℚ) : Decidable (tupLE a b) := by unfold tupLE; infer_instance

/-- Stable insertion for an ascending sort on key tuples: the new element
goes after every element whose key is ≤ its key, as `list.sort` keeps
already-present equals first. -/
def insertEntry (desc : Bool) (x : EvalEntry) : List EvalEntry → List EvalEntry
  | [] => [x]
  | y :: ys =>
    if tupLE (keyTuple desc y) (keyTuple desc x) then y :: insertEntry desc x ys
    else x :: y :: ys

/-- The Python stable sort of lines 526-537 (`evaluations.sort(key=...)`)
as a stable insertion sort on the key tuples. -/
def sortEvaluations (desc : Bool) (l : List EvalEntry) : List EvalEntry :=
  l.foldl (fun acc x => insertEntry desc x acc) []

/-- The ordering the specification describes for the descending direction:
match score strictly greater, or tied and composite greater, or tied and
experience greater, or tied and education ≥ — missing values read as 0. -/
def descOrder (a b : EvalEntry) : Prop := tupLE (entryVals b) (entryVals a)

/-- The fully inverted ordering for the ascending direction. -/
def ascOrder (a b : EvalEntry) : Prop := tupLE (entryVals a) (entryVals b)

/-- The ordering the claim asserts for a requested direction. -/
def claimOrder (desc : Bool) (a b : EvalEntry) : Prop :=
  if desc then descOrder a b else ascOrder a b

example : sortEvaluations true
    [⟨80, some ⟨0, 0, 0, 0, 85⟩, none⟩, ⟨80, some ⟨0, 0, 0, 0, 88⟩, none⟩]
    = [⟨80, some ⟨0, 0, 0, 0, 88⟩, none⟩, ⟨80, some ⟨0, 0, 0, 0, 85⟩, none⟩] := by
  with_unfolding_all decide

/-! ## Range lemmas: every sub-score lies in [0, 100] -/

theorem expBucketScore_bounds (y : ℚ) :
    0 ≤ expBucketScore y ∧ expBucketScore y ≤ 100 := by
  unfold expBucketScore
  split_ifs <;> norm_num

theorem expReqScore_bounds (R : ℕ) (y : ℚ) :
    0 ≤ expReqScore R y ∧ expReqScore R y ≤ 100 := by
  unfold expReqScore
  split_ifs with h1 h2 h3 h4
  · rw [qmin_eq, qmin_eq]
    have hm : (0 : ℚ) ≤ min ((y - (R : ℚ)) * 2) 20 :=
      le_min (mul_nonneg (by linarith) (by norm_num)) (by norm_num)
    exact ⟨le_min (by norm_num) (by linarith), min_le_left _ _⟩
  all_goals norm_num

theorem expScoreWithReq_bounds (req : Option ℕ) (y : ℚ) :
    0 ≤ expScoreWithReq req y ∧ expScoreWithReq req y ≤ 100 := by
  cases req with
  | none => exact expBucketScore_bounds y
  | some R =>
    simp only [expScoreWithReq]
    split_ifs
    · exact expBucketScore_bounds y
    · exact expReqScore_bounds R y

theorem experience_score_bounds (rs : ResumeSkills) (jd : String) :
    0 ≤ _calculate_experience_score rs jd ∧ _calculate_experience_score rs jd ≤ 100 := by
  unfold _calculate_experience_score
  split_ifs
  · norm_num
  · exact expScoreWithReq_bounds _ _

theorem lookupD_bounds (k : String) (l : List (String × ℚ))
    (h : ∀ p ∈ l, 0 ≤ p.2 ∧ p.2 ≤ 100) :
    0 ≤ (l.lookup k).getD 0 ∧ (l.lookup k).getD 0 ≤ 100 := by
  induction l with
  | nil => simp
  | cons p t ih =>
    obtain ⟨a, b⟩ := p
    rw [List.lookup]
    split
    · simpa using h (a, b) (by simp)
    · exact ih (fun q hq => h q (List.mem_cons_of_mem _ hq))

theorem educationHierarchy_entry_bounds :
    ∀ p ∈ educationHierarchy, 0 ≤ p.2 ∧ p.2 ≤ 100 := by
  intro p hp
  fin_cases hp <;> constructor <;> norm_num

theorem hierarchy_lookup_bounds (k : String) :
    0 ≤ (educationHierarchy.lookup k).getD 0 ∧
      (educationHierarchy.lookup k).getD 0 ≤ 100 :=
  lookupD_bounds k educationHierarchy educationHierarchy_entry_bounds

theorem degree_match_bounds (c r : String) :
    0 ≤ _calculate_degree_match_score c r educationHierarchy ∧
      _calculate_degree_match_score c r educationHierarchy ≤ 100 := by
  have hc := hierarchy_lookup_bounds c
  have hr := hierarchy_lookup_bounds r
  unfold _calculate_degree_match_score
  cases h1 : List.findIdx? (fun x => x == c) (educationHierarchy.map Prod.fst) with
  | none => simp only [h1]; exact hc
  | some ci =>
    cases h2 : List.findIdx? (fun x => x == r) (educationHierarchy.map Prod.fst) with
    | none => simp only [h1, h2]; exact hc
    | some ri =>
      simp only [h1, h2]
      split_ifs
      · exact hc
      · rw [qmin_eq, qmin_eq]
        have hm : (0 : ℚ) ≤ min (((ri - ci : ℕ) : ℚ) * 10) 20 :=
          le_min (mul_nonneg (by positivity) (by norm_num)) (by norm_num)
        exact ⟨le_min (by norm_num) (by linarith [hr.1]), min_le_left _ _⟩
      · rw [qmax_eq]
        have h15 : (0 : ℚ) ≤ ((ci - ri : ℕ) : ℚ) * 15 :=
          mul_nonneg (by positivity) (by norm_num)
        exact ⟨le_max_left _ _, max_le (by norm_num) (by linarith [hc.2])⟩
      · exact hc

theorem relevance_bonus_bounds (e jd : String) (b : ℚ)
    (h : _calculate_field_relevance_bonus e jd = Except.ok b) : 0 ≤ b ∧ b ≤ 15 := by
  unfold _calculate_field_relevance_bonus at h
  split_ifs at h <;> injection h with h' <;> subst h' <;> norm_num

theorem education_score_bounds (rs : ResumeSkills) (jd : String) (q : ℚ)
    (h : _calculate_education_score rs jd = Except.ok q) : 0 ≤ q ∧ q ≤ 100 := by
  unfold _calculate_education_score at h
  split_ifs at h
  · simp only [Except.ok.injEq] at h
    subst h
    norm_num
  · cases hcl : findCandidateLevel (toLowerStr (rs.education.getD "")).data with
    | none =>
      rw [hcl] at h
      simp only [Except.ok.injEq] at h
      subst h
      norm_num
    | some cl =>
      obtain ⟨candidate_level, candidate_score⟩ := cl
      rw [hcl] at h
      cases hb : _calculate_field_relevance_bonus (toLowerStr (rs.education.getD "")) jd with
      | error m => rw [hb] at h; exact absurd h (by simp)
      | ok b =>
        rw [hb] at h
        simp only [Except.ok.injEq] at h
        subst h
        have hbb := relevance_bonus_bounds _ _ _ hb
        have hs : 0 ≤ (match extractRequiredDegree jd with
            | some r => _calculate_degree_match_score candidate_level r educationHierarchy
            | none => candidate_score) ∧
            (match extractRequiredDegree jd with
            | some r => _calculate_degree_match_score candidate_level r educationHierarchy
            | none => candidate_score) ≤ 100 := by
          cases extractRequiredDegree jd with
          | some r => exact degree_match_bounds _ _
          | none =>
            have hmem' := List.mem_of_find?_eq_some hcl
            exact educationHierarchy_entry_bounds _ hmem'
        rw [qmin_eq]
        exact ⟨le_min (by norm_num) (by linarith [hs.1, hbb.1]), min_le_left _ _⟩

theorem skills_quality_bounds (rs : ResumeSkills) (jd : String) :
    0 ≤ _calculate_skills_quality_score rs jd ∧
      _calculate_skills_quality_score rs jd ≤ 100 := by
  unfold _calculate_skills_quality_score
  split_ifs with h1 h2
  · norm_num
  · norm_num
  · have hlen : 0 < (rs.skills.length : ℚ) := by
      have : rs.skills.length ≠ 0 := fun hz => h1 (List.eq_nil_of_length_eq_zero hz)
      positivity
    have hratio : (highValueCount rs.skills : ℚ) / (rs.skills.length : ℚ) ≤ 1 := by
      rw [div_le_one hlen]
      exact_mod_cast List.countP_le_length _
    have hrat0 : (0 : ℚ) ≤ (highValueCount rs.skills : ℚ) / (rs.skills.length : ℚ) := by
      positivity
    rw [qmin_eq, qmin_eq]
    have hb0 : (0 : ℚ) ≤ min ((rs.skills.length : ℚ) * 2) 20 :=
      le_min (by positivity) (by norm_num)
    have hb20 : min ((rs.skills.length : ℚ) * 2) 20 ≤ 20 := min_le_right _ _
    refine ⟨le_min (by norm_num) (by nlinarith), min_le_left _ _⟩

theorem densityBucket_bounds (d : ℚ) :
    0 ≤ densityBucket d ∧ densityBucket d ≤ 100 := by
  unfold densityBucket
  split_ifs <;> norm_num

theorem keyword_density_bounds (rt jd : String) :
    0 ≤ _calculate_keyword_density_score rt jd ∧
      _calculate_keyword_density_score rt jd ≤ 100 := by
  unfold _calculate_keyword_density_score kwScoreFromWords
  split_ifs <;> first | exact densityBucket_bounds _ | norm_num

theorem roundHalfEven_bounds (q : ℚ) (B : ℤ) (h0 : 0 ≤ q) (hB : q ≤ (B : ℚ)) :
    0 ≤ roundHalfEven q ∧ roundHalfEven q ≤ B := by
  unfold roundHalfEven
  simp only [ratFloor_eq]
  have hf0 : 0 ≤ ⌊q⌋ := Int.floor_nonneg.mpr h0
  have hfB : ⌊q⌋ ≤ B := by
    have := Int.floor_le_floor hB
    rwa [Int.floor_intCast] at this
  have hfq : (⌊q⌋ : ℚ) ≤ q := Int.floor_le q
  split_ifs with h1 h2 h3
  · exact ⟨hf0, hfB⟩
  · have : (⌊q⌋ : ℚ) < (B : ℚ) := by linarith
    have : ⌊q⌋ < B := by exact_mod_cast this
    omega
  · exact ⟨hf0, hfB⟩
  · have : (⌊q⌋ : ℚ) ≤ (B : ℚ) - 1/2 := by linarith
    have : (⌊q⌋ : ℚ) < (B : ℚ) := by linarith
    have : ⌊q⌋ < B := by exact_mod_cast this
    omega

theorem round2_bounds (q : ℚ) (B : ℕ) (h0 : 0 ≤ q) (hB : q ≤ (B : ℚ)) :
    0 ≤ round2 q ∧ round2 q ≤ (B : ℚ) := by
  unfold round2
  have h := roundHalfEven_bounds (q * 100) (B * 100) (by positivity) (by push_cast; linarith)
  constructor
  · apply div_nonneg _ (by norm_num : (0:ℚ) ≤ 100)
    exact_mod_cast h.1
  · rw [div_le_iff (by norm_num : (0:ℚ) < 100)]
    have : ((roundHalfEven (q * 100) : ℤ) : ℚ) ≤ (((B : ℤ) * 100 : ℤ) : ℚ) := by
      exact_mod_cast h.2
    push_cast at this ⊢
    linarith

/-! ## Monotonicity of the experience scorer -/

theorem expBucketScore_mono (y1 y2 : ℚ) (h : y1 ≤ y2) :
    expBucketScore y1 ≤ expBucketScore y2 := by
  unfold expBucketScore
  split_ifs <;> linarith

theorem expReqScore_mono (R : ℕ) (y1 y2 : ℚ) (h : y1 ≤ y2) :
    expReqScore R y1 ≤ expReqScore R y2 := by
  unfold expReqScore
  rcases le_or_lt (R : ℚ) y1 with h1 | h1
  · rw [if_pos h1, if_pos (le_trans h1 h)]
    rw [qmin_eq, qmin_eq, qmin_eq, qmin_eq]
    gcongr
  · rw [if_neg (not_le.mpr h1)]
    rcases le_or_lt (R : ℚ) y2 with h2 | h2
    · rw [if_pos h2, qmin_eq, qmin_eq]
      have hm : (0 : ℚ) ≤ min ((y2 - (R : ℚ)) * 2) 20 :=
        le_min (mul_nonneg (by linarith) (by norm_num)) (by norm_num)
      have h70 : (70 : ℚ) ≤ min 100 (80 + min ((y2 - (R : ℚ)) * 2) 20) :=
        le_min (by norm_num) (by linarith)
      split_ifs <;> linarith
    · rw [if_neg (not_le.mpr h2)]
      split_ifs <;> linarith

theorem expScoreWithReq_mono (req : Option ℕ) (y1 y2 : ℚ) (h : y1 ≤ y2) :
    expScoreWithReq req y1 ≤ expScoreWithReq req y2 := by
  cases req with
  | none => exact expBucketScore_mono y1 y2 h
  | some R =>
    simp only [expScoreWithReq]
    split_ifs
    · exact expBucketScore_mono y1 y2 h
    · exact expReqScore_mono R y1 y2 h

/-! ## `hasSub` agrees with list-infix containment -/

theorem litHere_iff (n l : List Char) : litHere n l = true ↔ n <+: l := by
  induction n generalizing l with
  | nil => simp [litHere, List.nil_prefix]
  | cons a as ih =>
    cases l with
    | nil => simp [litHere]
    | cons b bs =>
      simp only [litHere, Bool.and_eq_true, decide_eq_true_eq, ih, List.cons_prefix_cons]

theorem hasSub_iff (n l : List Char) : hasSub n l = true ↔ n <:+: l := by
  induction l with
  | nil => simp only [hasSub, litHere_iff, List.prefix_nil, List.infix_nil]
  | cons c t ih =>
    simp only [hasSub, Bool.or_eq_true, litHere_iff, ih]
    constructor
    · rintro (h | h)
      · exact h.isInfix
      · exact h.trans (List.suffix_cons c t).isInfix
    · rintro ⟨s, u, hsu⟩
      rcases s with _ | ⟨d, ds⟩
      · exact Or.inl ⟨u, by simpa using hsu⟩
      · right
        refine ⟨ds, u, ?_⟩
        injection hsu with h1 h2

theorem hasSub_trans (a b l : List Char) (hab : a <:+: b)
    (h : hasSub b l = true) : hasSub a l = true := by
  rw [hasSub_iff] at h ⊢
  exact hab.trans h

/-! ## Order lemmas for the tie-break sort -/

theorem lex2_total (a b : ℚ × ℚ) : lex2 a b ∨ lex2 b a := by
  unfold lex2
  rcases lt_trichotomy a.1 b.1 with h | h | h
  · exact Or.inl (Or.inl h)
  · rcases le_total a.2 b.2 with h2 | h2
    · exact Or.inl (Or.inr ⟨h, h2⟩)
    · exact Or.inr (Or.inr ⟨h.symm, h2⟩)
  · exact Or.inr (Or.inl h)

theorem lex3_total (a b : ℚ × ℚ × ℚ) : lex3 a b ∨ lex3 b a := by
  unfold lex3
  rcases lt_trichotomy a.1 b.1 with h | h | h
  · exact Or.inl (Or.inl h)
  · rcases lex2_total a.2 b.2 with h2 | h2
    · exact Or.inl (Or.inr ⟨h, h2⟩)
    · exact Or.inr (Or.inr ⟨h.symm, h2⟩)
  · exact Or.inr (Or.inl h)

theorem tupLE_total (a b : ℚ × ℚ × ℚ × ℚ) : tupLE a b ∨ tupLE b a := by
  unfold tupLE
  rcases lt_trichotomy a.1 b.1 with h | h | h
  · exact Or.inl (Or.inl h)
  · rcases lex3_total a.2 b.2 with h2 | h2
    · exact Or.inl (Or.inr ⟨h, h2⟩)
    · exact Or.inr (Or.inr ⟨h.symm, h2⟩)
  · exact Or.inr (Or.inl h)

theorem lex2_trans (a b c : ℚ × ℚ) (h1 : lex2 a b) (h2 : lex2 b c) : lex2 a c := by
  unfold lex2 at *
  rcases h1 with h1 | ⟨e1, h1⟩ <;> rcases h2 with h2 | ⟨e2, h2⟩
  · exact Or.inl (h1.trans h2)
  · exact Or.inl (lt_of_lt_of_le h1 (le_of_eq e2))
  · exact Or.inl (lt_of_le_of_lt (le_of_eq e1) h2)
  · exact Or.inr ⟨e1.trans e2, h1.trans h2⟩

theorem lex3_trans (a b c : ℚ × ℚ × ℚ) (h1 : lex3 a b) (h2 : lex3 b c) : lex3 a c := by
  unfold lex3 at *
  rcases h1 with h1 | ⟨e1, h1⟩ <;> rcases h2 with h2 | ⟨e2, h2⟩
  · exact Or.inl (h1.trans h2)
  · exact Or.inl (lt_of_lt_of_le h1 (le_of_eq e2))
  · exact Or.inl (lt_of_le_of_lt (le_of_eq e1) h2)
  · exact Or.inr ⟨e1.trans e2, lex2_trans _ _ _ h1 h2⟩

theorem tupLE_trans (a b c : ℚ × ℚ × ℚ × ℚ) (h1 : tupLE a b) (h2 : tupLE b c) : tupLE a c := by
  unfold tupLE at *
  rcases h1 with h1 | ⟨e1, h1⟩ <;> rcases h2 with h2 | ⟨e2, h2⟩
  · exact Or.inl (h1.trans h2)
  · exact Or.inl (lt_of_lt_of_le h1 (le_of_eq e2))
  · exact Or.inl (lt_of_le_of_lt (le_of_eq e1) h2)
  · exact Or.inr ⟨e1.trans e2, lex3_trans _ _ _ h1 h2⟩

theorem tupLE_neg (a b : ℚ × ℚ × ℚ × ℚ) :
    tupLE (-a.1, -a.2.1, -a.2.2.1, -a.2.2.2) (-b.1, -b.2.1, -b.2.2.1, -b.2.2.2) ↔
      tupLE b a := by
  unfold tupLE lex3 lex2
  constructor
  · rintro (h | ⟨e1, h | ⟨e2, h | ⟨e3, h⟩⟩⟩)
    · exact Or.inl (by dsimp only at h ⊢; linarith)
    · exact Or.inr ⟨by dsimp only at e1 ⊢; linarith, Or.inl (by dsimp only at h ⊢; linarith)⟩
    · exact Or.inr ⟨by dsimp only at e1 ⊢; linarith,
        Or.inr ⟨by dsimp only at e2 ⊢; linarith, Or.inl (by dsimp only at h ⊢; linarith)⟩⟩
    · exact Or.inr ⟨by dsimp only at e1 ⊢; linarith,
        Or.inr ⟨by dsimp only at e2 ⊢; linarith,
          Or.inr ⟨by dsimp only at e3 ⊢; linarith, by dsimp only at h ⊢; linarith⟩⟩⟩
  · rintro (h | ⟨e1, h | ⟨e2, h | ⟨e3, h⟩⟩⟩)
    · exact Or.inl (by dsimp only at h ⊢; linarith)
    · exact Or.inr ⟨by dsimp only at e1 ⊢; linarith, Or.inl (by dsimp only at h ⊢; linarith)⟩
    · exact Or.inr ⟨by dsimp only at e1 ⊢; linarith,
        Or.inr ⟨by dsimp only at e2 ⊢; linarith, Or.inl (by dsimp only at h ⊢; linarith)⟩⟩
    · exact Or.inr ⟨by dsimp only at e1 ⊢; linarith,
        Or.inr ⟨by dsimp only at e2 ⊢; linarith,
          Or.inr ⟨by dsimp only at e3 ⊢; linarith, by dsimp only at h ⊢; linarith⟩⟩⟩

/-- The comparison the embedded sort performs between two entries. -/
def entryLE (desc : Bool) (a b : EvalEntry) : Prop :=
  tupLE (keyTuple desc a) (keyTuple desc b)

theorem entryLE_iff_claimOrder (desc : Bool) (a b : EvalEntry) :
    entryLE desc a b ↔ claimOrder desc a b := by
  cases desc
  · simp only [entryLE, keyTuple, claimOrder, descOrder, ascOrder, entryVals,
      Bool.false_eq_true, if_false]
  · simp only [entryLE, keyTuple, claimOrder, descOrder, ascOrder, entryVals, if_true]
    exact tupLE_neg (a.match_score, compOf a, expOf a, eduOf a)
      (b.match_score, compOf b, expOf b, eduOf b)

theorem mem_insertEntry (desc : Bool) (x : EvalEntry) (l : List EvalEntry) (z : EvalEntry)
    (hz : z ∈ insertEntry desc x l) : z = x ∨ z ∈ l := by
  induction l with
  | nil => simpa [insertEntry] using hz
  | cons y ys ih =>
    unfold insertEntry at hz
    split_ifs at hz
    · rcases List.mem_cons.mp hz with rfl | hz'
      · exact Or.inr (List.mem_cons_self _ _)
      · rcases ih hz' with rfl | hz''
        · exact Or.inl rfl
        · exact Or.inr (List.mem_cons_of_mem _ hz'')
    · rcases List.mem_cons.mp hz with rfl | hz'
      · exact Or.inl rfl
      · exact Or.inr hz'

theorem insertEntry_pairwise (desc : Bool) (x : EvalEntry) (l : List EvalEntry)
    (h : l.Pairwise (entryLE desc)) :
    (insertEntry desc x l).Pairwise (entryLE desc) := by
  induction l with
  | nil => simp [insertEntry]
  | cons y ys ih =>
    rw [List.pairwise_cons] at h
    obtain ⟨hy, hys⟩ := h
    unfold insertEntry
    split_ifs with hcond
    · rw [List.pairwise_cons]
      refine ⟨?_, ih hys⟩
      intro z hz
      rcases mem_insertEntry desc x ys z hz with rfl | hz'
      · exact hcond
      · exact hy z hz'
    · have hxy : entryLE desc x y := by
        rcases tupLE_total (keyTuple desc y) (keyTuple desc x) with h | h
        · exact absurd h hcond
        · exact h
      rw [List.pairwise_cons]
      refine ⟨?_, List.pairwise_cons.mpr ⟨hy, hys⟩⟩
      intro z hz
      rcases List.mem_cons.mp hz with rfl | hz'
      · exact hxy
      · exact tupLE_trans _ _ _ hxy (hy z hz')

theorem insertEntry_perm (desc : Bool) (x : EvalEntry) (l : List EvalEntry) :
    (insertEntry desc x l).Perm (x :: l) := by
  induction l with
  | nil => exact List.Perm.refl _
  | cons y ys ih =>
    unfold insertEntry
    split_ifs
    · exact (ih.cons y).trans (List.Perm.swap x y ys)
    · exact List.Perm.refl _

theorem foldl_insert_perm (desc : Bool) (l acc : List EvalEntry) :
    (l.foldl (fun a x => insertEntry desc x a) acc).Perm (acc ++ l) := by
  induction l generalizing acc with
  | nil => simp
  | cons x xs ih =>
    simp only [List.foldl_cons]
    refine (ih (insertEntry desc x acc)).trans ?_
    refine ((insertEntry_perm desc x acc).append_right xs).trans ?_
    exact (List.perm_middle).symm

theorem foldl_insert_pairwise (desc : Bool) (l acc : List EvalEntry)
    (hacc : acc.Pairwise (entryLE desc)) :
    (l.foldl (fun a x => insertEntry desc x a) acc).Pairwise (entryLE desc) := by
  induction l generalizing acc with
  | nil => simpa using hacc
  | cons x xs ih =>
    simp only [List.foldl_cons]
    exact ih _ (insertEntry_pairwise desc x acc hacc)

theorem sortEvaluations_perm (desc : Bool) (l : List EvalEntry) :
    (sortEvaluations desc l).Perm l := by
  simpa using foldl_insert_perm desc l []

theorem sortEvaluations_pairwise (desc : Bool) (l : List EvalEntry) :
    (sortEvaluations desc l).Pairwise (claimOrder desc) := by
  have h := foldl_insert_pairwise desc l [] (List.Pairwise.nil)
  exact h.imp (fun hab => (entryLE_iff_claimOrder desc _ _).mp hab)

/-! ## Keyword-density score depends only on the resume token multiset -/

theorem kwScoreFromWords_perm (top : List (String × ℕ)) (w1 w2 : List String)
    (h : w1.Perm w2) : kwScoreFromWords top w1 = kwScoreFromWords top w2 := by
  unfold kwScoreFromWords
  rw [h.length_eq]
  have hmap : top.map (fun kw => w1.count kw.1) = top.map (fun kw => w2.count kw.1) :=
    List.map_congr_left (fun kw _ => h.count_eq kw.1)
  rw [hmap]

/-! ### End-to-end checks of the embedding

Concrete evaluations of the whole pipeline, covering the met-requirement
experience path, the lower-degree penalty plus field-relevance bonus path
(55 + 15 = 70), fractional experience years, and the keyword counting. -/

set_option maxRecDepth 10000 in
example : calculate_ranking_breakdown "resume python java text"
    ⟨["Python", "Excel"], some 4, some "B.S. in Data Science"⟩
    "Senior Python developer, minimum 3 years. bachelor degree preferred. python python" "t" 77
    = Except.ok ⟨82, 70, 44, 100, 80.4⟩ := by with_unfolding_all decide

set_option maxRecDepth 10000 in
example : calculate_ranking_breakdown "alpha beta gamma delta"
    ⟨["cooking"], some 0.5, some "High school diploma"⟩
    "alpha alpha beta data analyst role" "" 60
    = Except.ok ⟨25, 40, 2, 100, 54.85⟩ := by with_unfolding_all decide

/-! ## Claim theorems -/

/-- C1: for every baseline match score and every input, the composite
score returned by `calculate_ranking_breakdown` is the weighted sum
`0.70·baseline + 0.15·experience + 0.10·education + 0.05·skillsQuality +
0.05·keywordDensity`, rounded to 2 decimal places, where the four
sub-scores are exactly the values the four sub-score calculators compute
on the same inputs. -/
theorem composite_weighted_sum (rt : String) (rs : ResumeSkills) (jd jt : String)
    (ms : ℚ) (bd : RankingBreakdown)
    (h : calculate_ranking_breakdown rt rs jd jt ms = Except.ok bd) :
    bd.composite_score = round2 (0.70 * ms + 0.15 * bd.experience_score +
      0.10 * bd.education_score + 0.05 * bd.skills_quality_score +
      0.05 * bd.keyword_density_score) ∧
    bd.experience_score = _calculate_experience_score rs jd ∧
    _calculate_education_score rs jd = Except.ok bd.education_score ∧
    bd.skills_quality_score = _calculate_skills_quality_score rs jd ∧
    bd.keyword_density_score = _calculate_keyword_density_score rt jd := by
  unfold calculate_ranking_breakdown at h
  cases he : _calculate_education_score rs jd with
  | error m => rw [he] at h; exact absurd h (by simp)
  | ok ed =>
    rw [he] at h
    simp only [Except.ok.injEq] at h
    subst h
    refine ⟨?_, rfl, rfl, rfl, rfl⟩
    show round2 _ = round2 _
    exact congrArg round2 (by ring)

/-- Witness for C1 at a concrete input. -/
theorem composite_weighted_sum_witness :
    (35 : ℚ) = round2 (0.70 * 50 + 0.15 * 0 + 0.10 * 0 + 0.05 * 0 + 0.05 * 0) := by
  have h := composite_weighted_sum "" ⟨[], none, none⟩ "" "" 50 ⟨0, 0, 0, 0, 35⟩
    (by with_unfolding_all decide)
  simpa using h.1

/-- C2 counterexample: the composite weights are 0.70 + 0.15 + 0.10 +
0.05 + 0.05 = 1.05, so the computed composite exceeds 100 whenever all
five inputs are high.  A candidate with 10 years of experience, 10
high-value skills and a PhD in computer science against the posting
"software" with baseline 100 gets all four sub-scores 100 and composite
105.  (The pydantic bound `le=100` on `composite_score` then means the
`RankingBreakdown` constructor rejects this very value at run time, so
the computation's result is out of range, not clamped.) -/
theorem composite_exceeds_hundred_cex :
    calculate_ranking_breakdown "software"
      ⟨List.replicate 10 "python", some 10, some "PhD in Computer Science"⟩
      "software" "" 100
      = Except.ok ⟨100, 100, 100, 100, 105⟩ ∧
    ¬ ((105 : ℚ) ≤ 100) := by
  constructor
  · with_unfolding_all decide
  · norm_num

/-- C2 amended: for every input and baseline match score in [0, 100],
every sub-score of a returned breakdown lies in [0, 100]; the composite
lies in [0, 105] (the weights sum to 1.05, not 1). -/
theorem breakdown_scores_in_range (rt : String) (rs : ResumeSkills) (jd jt : String)
    (ms : ℚ) (bd : RankingBreakdown) (h0 : 0 ≤ ms) (h100 : ms ≤ 100)
    (h : calculate_ranking_breakdown rt rs jd jt ms = Except.ok bd) :
    (0 ≤ bd.experience_score ∧ bd.experience_score ≤ 100) ∧
    (0 ≤ bd.education_score ∧ bd.education_score ≤ 100) ∧
    (0 ≤ bd.skills_quality_score ∧ bd.skills_quality_score ≤ 100) ∧
    (0 ≤ bd.keyword_density_score ∧ bd.keyword_density_score ≤ 100) ∧
    (0 ≤ bd.composite_score ∧ bd.composite_score ≤ 105) := by
  unfold calculate_ranking_breakdown at h
  cases he : _calculate_education_score rs jd with
  | error m => rw [he] at h; exact absurd h (by simp)
  | ok ed =>
    rw [he] at h
    simp only [Except.ok.injEq] at h
    subst h
    have hexp := experience_score_bounds rs jd
    have hedu := education_score_bounds rs jd ed he
    have hsq := skills_quality_bounds rs jd
    have hkw := keyword_density_bounds rt jd
    refine ⟨hexp, hedu, hsq, hkw, ?_⟩
    have hb := round2_bounds (ms * 0.7 + _calculate_experience_score rs jd * 0.15 +
      ed * 0.10 + _calculate_skills_quality_score rs jd * 0.05 +
      _calculate_keyword_density_score rt jd * 0.05) 105 ?_ ?_
    · exact_mod_cast hb
    · have := hexp.1; have := hedu.1; have := hsq.1; have := hkw.1; linarith
    · have := hexp.2; have := hedu.2; have := hsq.2; have := hkw.2
      push_cast
      linarith

/-- Witness for C2's amended theorem at a concrete input. -/
theorem breakdown_scores_in_range_witness :
    (0 : ℚ) ≤ 80 ∧ (80 : ℚ) ≤ 100 ∧
    calculate_ranking_breakdown "" ⟨[], some 2, none⟩ "" "" 80
      = Except.ok ⟨50, 0, 0, 0, 63.5⟩ ∧
    (0 ≤ (⟨50, 0, 0, 0, 63.5⟩ : RankingBreakdown).composite_score ∧
      (⟨50, 0, 0, 0, 63.5⟩ : RankingBreakdown).composite_score ≤ 105) :=
  ⟨by norm_num, by norm_num, by with_unfolding_all decide,
   (breakdown_scores_in_range "" ⟨[], some 2, none⟩ "" "" 80 ⟨50, 0, 0, 0, 63.5⟩
     (by norm_num) (by norm_num) (by with_unfolding_all decide)).2.2.2.2⟩

/-- C3 (code bug): the claim says every sub-score calculator returns
normally, resolving missing data to a local 0.  The education scorer
violates this: an education string that matches a hierarchy level and an
engineering field (but no tech or business field) reaches the generator
`any(eng in job_desc_lower for tech in [...])` whose name `eng` is
unbound, so Python raises `NameError` — here the `Except.error` value —
and the error propagates out of `calculate_ranking_breakdown`. -/
theorem education_engineering_branch_raises :
    _calculate_education_score ⟨[], none, some "Bachelor of Mechanical Engineering"⟩ ""
      = Except.error nameErrMsg ∧
    calculate_ranking_breakdown "" ⟨[], none, some "Bachelor of Mechanical Engineering"⟩ "" "" 50
      = Except.error nameErrMsg := by
  constructor <;> with_unfolding_all decide

/-- Modelled from the spec: the claim's seven-level degree hierarchy
(doctorate/PhD=100, master's/MBA=85, B.S.=70, B.A.=65, associate=50,
diploma=40, certificate=30), indexed from the highest level. -/
def sevenLevelScores : List ℚ := [100, 85, 70, 65, 50, 40, 30]

/-- Modelled from the spec: "a candidate level higher than required scores
the required level's score + min(10 × levels-above, 20) capped at 100"
over the seven-level hierarchy, for candidate index `ci` and required
index `ri`. -/
def claimSevenLevelHigherScore (ci ri : ℕ) : ℚ :=
  qmin 100 (sevenLevelScores.getD ri 0 + qmin (10 * ((ri - ci : ℕ) : ℚ)) 20)

/-- C4 counterexample: the code measures level distance in rows of its
11-row pattern table, not in the claim's 7 levels.  A candidate whose
education matches `m\.?s\.?` (master's level, claim index 1) against a
required bachelor's (claim index 2) is 1 level above per the claim
(score 70 + 10 = 80) but 2 rows above in the code (rows 3 and 5), which
caps the bonus: 70 + 20 = 90. -/
theorem degree_match_seven_level_cex :
    _calculate_degree_match_score msKey "bachelor" educationHierarchy = 90 ∧
    claimSevenLevelHigherScore 1 2 = 80 ∧
    _calculate_education_score ⟨[], none, some "M.S. in Biology"⟩ "bachelor degree required"
      = Except.ok 90 ∧
    (90 : ℚ) ≠ 80 := by
  refine ⟨?_, ?_, ?_, ?_⟩ <;> with_unfolding_all decide

/-- C4 amended: for candidate and required levels found in the code's
11-row table at positions `ci` and `ri`, a higher candidate scores the
required row's score + min(10 × (ri − ci), 20) capped at 100, and a lower
candidate scores its own row's score − 15 × (ci − ri) floored at 0 —
distances counted in table rows. -/
theorem degree_match_index_distance (c r : String) (ci ri : ℕ)
    (hc : (educationHierarchy.map Prod.fst).findIdx? (fun x => x == c) = some ci)
    (hr : (educationHierarchy.map Prod.fst).findIdx? (fun x => x == r) = some ri) :
    (ci < ri → _calculate_degree_match_score c r educationHierarchy =
      qmin 100 ((educationHierarchy.lookup r).getD 0 +
        qmin (((ri - ci : ℕ) : ℚ) * 10) 20)) ∧
    (ri < ci → _calculate_degree_match_score c r educationHierarchy =
      qmax 0 ((educationHierarchy.lookup c).getD 0 - ((ci - ri : ℕ) : ℚ) * 15)) := by
  have hcr : c = r → ci = ri := by
    intro heq
    subst heq
    rw [hc] at hr
    exact Option.some.inj hr
  constructor
  · intro hlt
    have hne : c ≠ r := fun heq => absurd (hcr heq) (Nat.ne_of_lt hlt)
    unfold _calculate_degree_match_score
    simp only [hc, hr]
    rw [if_neg hne, if_pos hlt]
  · intro hlt
    have hne : c ≠ r := fun heq => absurd (hcr heq) (Nat.ne_of_gt hlt)
    unfold _calculate_degree_match_score
    simp only [hc, hr]
    rw [if_neg hne, if_neg (by omega : ¬ ci < ri), if_pos hlt]

/-- Witness for C4's amended theorem: both directions at concrete level
pairs. -/
theorem degree_match_index_distance_witness :
    _calculate_degree_match_score "phd" "master" educationHierarchy = 100 ∧
    _calculate_degree_match_score "associate" "master" educationHierarchy = 0 := by
  have h1 := (degree_match_index_distance "phd" "master" 0 2
    (by decide) (by decide)).1 (by norm_num)
  have h2 := (degree_match_index_distance "associate" "master" 8 2
    (by decide) (by decide)).2 (by norm_num)
  rw [h1, h2]
  constructor <;> with_unfolding_all decide

/-- C5 counterexample: the pattern `at\s*least\s*(\d+)\s*years?` extracts
the requirement `0` from "at least 0 years", but `if not required_exp:`
treats `0` as no requirement, so a candidate with 6 years scores the
general-experience bucket value 85 instead of the claimed
`min(100, 80 + min(2·(6−0), 20)) = 92`. -/
theorem experience_zero_requirement_cex :
    extractRequiredExp "at least 0 years" = some 0 ∧
    _calculate_experience_score ⟨[], some 6, none⟩ "at least 0 years" = 85 ∧
    (85 : ℚ) ≠ qmin 100 (80 + qmin (((6 : ℚ) - ((0 : ℕ) : ℚ)) * 2) 20) := by
  refine ⟨by decide, by decide, ?_⟩
  with_unfolding_all decide

/-- C5 amended: for every posting from which a **non-zero** experience
requirement `R` is extracted and every candidate with years ≥ R, the
experience score is `min(100, 80 + min(2·(years − R), 20))`. -/
theorem experience_meets_nonzero_requirement (jd : String) (sk : ResumeSkills)
    (R : ℕ) (y : ℚ) (hreq : extractRequiredExp jd = some R) (hR : R ≠ 0)
    (hy : (R : ℚ) ≤ y) :
    _calculate_experience_score { sk with experience_years := some y } jd =
      qmin 100 (80 + qmin ((y - (R : ℚ)) * 2) 20) := by
  have h1 : (1 : ℚ) ≤ (R : ℚ) := by exact_mod_cast Nat.one_le_iff_ne_zero.mpr hR
  have hy0 : ¬ y = 0 := by intro h0; rw [h0] at hy; linarith
  unfold _calculate_experience_score
  simp only [Option.getD_some]
  rw [if_neg hy0, hreq]
  simp only [expScoreWithReq]
  rw [if_neg hR]
  unfold expReqScore
  rw [if_pos hy]

/-- Witness for C5's amended theorem: the claim's own scenario, 6 years
against "at least 5 years", scores exactly 82. -/
theorem experience_meets_nonzero_requirement_witness :
    extractRequiredExp "at least 5 years" = some 5 ∧
    _calculate_experience_score ⟨[], some 6, none⟩ "at least 5 years" = 82 := by
  refine ⟨by decide, ?_⟩
  have h : _calculate_experience_score ⟨[], some 6, none⟩ "at least 5 years"
      = qmin 100 (80 + qmin ((6 - ((5 : ℕ) : ℚ)) * 2) 20) :=
    experience_meets_nonzero_requirement "at least 5 years" ⟨[], none, none⟩ 5 6
      (by decide) (by norm_num) (by norm_num)
  rw [h]
  with_unfolding_all decide

/-- C6: for every fixed posting text, the experience score is
monotonically non-decreasing in the candidate's (non-negative) years of
experience. -/
theorem experience_score_monotone (jd : String) (sk : ResumeSkills) (y1 y2 : ℚ)
    (h0 : 0 ≤ y1) (h12 : y1 ≤ y2) :
    _calculate_experience_score { sk with experience_years := some y1 } jd ≤
      _calculate_experience_score { sk with experience_years := some y2 } jd := by
  unfold _calculate_experience_score
  simp only [Option.getD_some]
  by_cases hy1 : y1 = 0
  · rw [if_pos hy1]
    split_ifs
    · exact le_refl 0
    · exact (expScoreWithReq_bounds _ _).1
  · have hy2 : ¬ y2 = 0 := fun h => hy1 (le_antisymm (h ▸ h12) h0)
    rw [if_neg hy1, if_neg hy2]
    exact expScoreWithReq_mono _ y1 y2 h12

/-- Witness for C6 at concrete years. -/
theorem experience_score_monotone_witness :
    (0 : ℚ) ≤ 1 ∧ (1 : ℚ) ≤ 2 ∧
    _calculate_experience_score ⟨[], some 1, none⟩ "" ≤
      _calculate_experience_score ⟨[], some 2, none⟩ "" :=
  ⟨by norm_num, by norm_num,
   experience_score_monotone "" ⟨[], none, none⟩ 1 2 (by norm_num) (by norm_num)⟩

/-- C7: for every posting and every pair of resume texts whose word-token
sequences are permutations of each other, the keyword density score is
identical. -/
theorem keyword_density_perm_invariant (jd r1 r2 : String)
    (h : (tokenizeWords r1).Perm (tokenizeWords r2)) :
    _calculate_keyword_density_score r1 jd = _calculate_keyword_density_score r2 jd := by
  unfold _calculate_keyword_density_score
  exact kwScoreFromWords_perm _ _ _ h

/-- Witness for C7 at concrete texts. -/
theorem keyword_density_perm_invariant_witness :
    (tokenizeWords "python java").Perm (tokenizeWords "java python") ∧
    _calculate_keyword_density_score "python java" "senior python developer"
      = _calculate_keyword_density_score "java python" "senior python developer" := by
  have hp : (tokenizeWords "python java").Perm (tokenizeWords "java python") := by
    rw [show tokenizeWords "python java" = ["python", "java"] from by decide,
        show tokenizeWords "java python" = ["java", "python"] from by decide]
    exact List.Perm.swap _ _ _
  exact ⟨hp, keyword_density_perm_invariant _ _ _ hp⟩

/-- C8: the tie-break sort used when the primary sort field is the match
score is a permutation of its input whose output is ordered by
(match score, composite score, experience years, education sub-score) —
all four keys descending for the descending direction and all four
inverted together for the ascending direction, missing values read as 0;
in the claim's concrete scenario two entries with match score 80 and
composite scores 88 and 85 sort with the 88-entry first under the
descending direction. -/
theorem ranking_sort_tiebreak_order :
    (∀ (desc : Bool) (l : List EvalEntry),
      (sortEvaluations desc l).Perm l ∧
      (sortEvaluations desc l).Pairwise (claimOrder desc)) ∧
    sortEvaluations true
      [⟨80, some ⟨0, 0, 0, 0, 85⟩, none⟩, ⟨80, some ⟨0, 0, 0, 0, 88⟩, none⟩] =
      [⟨80, some ⟨0, 0, 0, 0, 88⟩, none⟩, ⟨80, some ⟨0, 0, 0, 0, 85⟩, none⟩] := by
  refine ⟨fun desc l => ⟨sortEvaluations_perm desc l, sortEvaluations_pairwise desc l⟩, ?_⟩
  with_unfolding_all decide

/-- C9: the skills quality score never depends on the posting text, and
equals `min(100, (highValueCount/totalSkillCount)·80 +
min(totalSkillCount·2, 20))`, with 0 for an empty skill list. -/
theorem skills_quality_posting_independent (rs : ResumeSkills) (jd1 jd2 : String) :
    _calculate_skills_quality_score rs jd1 = _calculate_skills_quality_score rs jd2 ∧
    _calculate_skills_quality_score rs jd1 =
      (if rs.skills = [] then 0
       else qmin 100 ((highValueCount rs.skills : ℚ) / (rs.skills.length : ℚ) * 80 +
         qmin ((rs.skills.length : ℚ) * 2) 20)) := by
  refine ⟨rfl, ?_⟩
  unfold _calculate_skills_quality_score
  by_cases h : rs.skills = []
  · rw [if_pos h, if_pos h]
  · rw [if_neg h, if_neg h,
      if_neg (fun hz => h (List.eq_nil_of_length_eq_zero hz))]

/-- Helper: `keyMatches` of a plain (non-regex) hierarchy key is the
substring test. -/
theorem keyMatches_plain (k : String) (hk1 : k ≠ msKey) (hk2 : k ≠ bsKey)
    (hk3 : k ≠ baKey) (hay : List Char) : keyMatches k hay = hasSub k.data hay := by
  unfold keyMatches
  rw [if_neg hk1, if_neg hk2, if_neg hk3]

/-- C10: any posting whose lowercased text contains "systems" (with no
phd/doctorate/doctoral mention) is treated as requiring a master's degree
— the alternative `m\.?s\.?` matches the "ms" inside "systems" — and any
education string containing "systems" (with no phd/doctorate mention) is
classified at the master's level with base score 85. -/
theorem ms_regex_matches_systems (jd edu : String)
    (h1 : hasSub "systems".data (lowerChars jd) = true)
    (h2 : hasSub "phd".data (lowerChars jd) = false)
    (h3 : hasSub "doctorate".data (lowerChars jd) = false)
    (h4 : hasSub "doctoral".data (lowerChars jd) = false)
    (h5 : hasSub "systems".data (lowerChars edu) = true)
    (h6 : hasSub "phd".data (lowerChars edu) = false)
    (h7 : hasSub "doctorate".data (lowerChars edu) = false) :
    extractRequiredDegree jd = some "master" ∧
    (findCandidateLevel (lowerChars edu)).map Prod.snd = some 85 := by
  have hms_inf : (['m', 's'] : List Char) <:+: "systems".data :=
    ⟨['s', 'y', 's', 't', 'e'], [], by decide⟩
  have hms_jd : hasSub ['m', 's'] (lowerChars jd) = true := hasSub_trans _ _ _ hms_inf h1
  have hms_edu : hasSub ['m', 's'] (lowerChars edu) = true := hasSub_trans _ _ _ hms_inf h5
  constructor
  · unfold extractRequiredDegree
    rw [h2, h3, h4]
    rw [if_neg (by simp)]
    rw [if_pos (by unfold hasOptDot; rw [hms_jd]; simp)]
  · have k1 : keyMatches "phd" (lowerChars edu) = false := by
      rw [keyMatches_plain _ (by decide) (by decide) (by decide)]
      exact h6
    have k2 : keyMatches "doctorate" (lowerChars edu) = false := by
      rw [keyMatches_plain _ (by decide) (by decide) (by decide)]
      exact h7
    have kms : keyMatches msKey (lowerChars edu) = true := by
      unfold keyMatches
      rw [if_pos rfl]
      unfold hasOptDot
      rw [hms_edu]
      simp
    unfold findCandidateLevel educationHierarchy
    rw [List.find?_cons_of_neg _ (by simp [k1]),
        List.find?_cons_of_neg _ (by simp [k2])]
    by_cases hmaster : keyMatches "master" (lowerChars edu) = true
    · rw [List.find?_cons_of_pos _ (by simpa using hmaster)]
      rfl
    · rw [List.find?_cons_of_neg _ (by simpa using hmaster),
          List.find?_cons_of_pos _ (by simpa using kms)]
      rfl

/-- Witness for C10 at concrete posting and education strings. -/
theorem ms_regex_matches_systems_witness :
    extractRequiredDegree "experience with distributed systems" = some "master" ∧
    (findCandidateLevel (lowerChars "information systems")).map Prod.snd = some 85 :=
  ms_regex_matches_systems "experience with distributed systems" "information systems"
    (by decide) (by decide) (by decide) (by decide) (by decide) (by decide) (by decide)

example : extractRequiredExp "at least 5 years" = some 5 := by decide
example : extractRequiredExp "at least 0 years" = some 0 := by decide
example : extractRequiredExp "6+ years of experience in java" = some 6 := by decide
example : extractRequiredExp "3-5 years experience" = some 5 := by decide
example : extractRequiredExp "minimum 4 years in ops" = some 4 := by decide
example : extractRequiredExp "no requirement here" = none := by decide
example : _calculate_experience_score ⟨[], some 6, none⟩ "at least 5 years" = 82 := by with_unfolding_all decide
example : _calculate_experience_score ⟨[], some 6, none⟩ "at least 0 years" = 85 := by decide
